import Mathlib

/-!
Verification of the Flight Routes System (a Django application managing
airports and flight routes) against its natural-language specification.

The embedding below is a shallow model of the two database tables
(routes/models.py: Airport, Route), the form validation layer
(routes/forms.py) and the request handlers (routes/views.py).  The
database is a pure value of type DB; each POST handler is a function
from a DB and the submitted form data to a new DB together with an
outcome.  Persistence failures (exceptions raised inside the
transaction.atomic block and caught by the view) are modelled by a
Boolean persistOk parameter: when it is false the write raises, the
transaction rolls back, and the view reports an error message.

String handling mirrors Python: pyStrip models str.strip (Django's
CharField strip=True and the explicit .strip() calls), pyUpper models
str.upper, and isalpha models str.isalpha, all at ASCII granularity.
-/

/-- Python str.strip: drop leading and trailing whitespace. -/
def pyStrip (s : String) : String :=
  ⟨((s.data.dropWhile Char.isWhitespace).reverse.dropWhile Char.isWhitespace).reverse⟩

/-- Python str.upper: uppercase every character (ASCII). -/
def pyUpper (s : String) : String :=
  ⟨s.data.map Char.toUpper⟩

/-- Python str.isalpha: non-empty and every character alphabetic. -/
def isalpha (s : String) : Bool :=
  !s.data.isEmpty && s.data.all Char.isAlpha

/-- Airport row (routes/models.py, class Airport): code is the primary
key (3-character IATA code, unique), name a display string, position a
unique integer used by the left/right offset query. -/
structure Airport where
  code : String
  name : String
  position : Int
deriving DecidableEq

/-- Route row (routes/models.py, class Route): source and destination
are foreign keys to Airport (stored here as the referenced primary-key
code), distance an integer, created_at the auto_now_add timestamp
(modelled as a logical clock), id the automatic integer primary key. -/
structure Route where
  id : Nat
  source : String
  destination : String
  distance : Int
  created_at : Nat
deriving DecidableEq

/-- Database state: the two tables plus the auto-increment counter for
Route primary keys (also used as the logical creation clock). -/
structure DB where
  airports : List Airport
  routes : List Route
  nextRouteId : Nat
deriving DecidableEq

/-- The empty database (state after the migrations, before any data). -/
def DB.empty : DB := ⟨[], [], 0⟩

/-- Ordering used by the Airport default queryset: Meta.ordering is
by position (models.py, Airport.Meta). -/
def Airport.posLe (a b : Airport) : Prop := a.position ≤ b.position

instance : DecidableRel Airport.posLe := fun a b =>
  inferInstanceAs (Decidable (a.position ≤ b.position))

instance : IsTotal Airport Airport.posLe := ⟨fun a b => Int.le_total a.position b.position⟩

instance : IsTrans Airport Airport.posLe := ⟨fun _ _ _ h1 h2 => le_trans h1 h2⟩

/-- Airport.objects.all() under the default Meta ordering by position. -/
def airportsByPosition (db : DB) : List Airport :=
  List.insertionSort Airport.posLe db.airports

/-- Airport.objects.filter(position=p).first(): the first airport (in
the default position ordering) whose position equals p. -/
def Airport.findByPosition (db : DB) (p : Int) : Option Airport :=
  ((airportsByPosition db).filter (fun a => a.position == p)).head?

/-- The target position computed by NthNodeSearchView.post
(views.py lines 99-103): start - n for direction left, start + n
otherwise (the form only admits left or right). -/
def NthNodeSearchView.target (startPos : Int) (direction : String) (n : Int) : Int :=
  if direction = "left" then startPos - n else startPos + n

/-- NthNodeSearchView.post (views.py lines 84-131): compute the target
position from the validated form data, then look up the airport at that
exact position; none models the not-found error message. -/
def NthNodeSearchView.post (db : DB) (starting_airport : Airport)
    (direction : String) (n : Int) : Option Airport :=
  Airport.findByPosition db (NthNodeSearchView.target starting_airport.position direction n)

/-- The SQL MAX aggregate over a list of values, as produced by
Route.objects.aggregate(max_distance=Max('distance')): none on an
empty table. -/
def aggregateMax : List Int → Option Int
  | [] => none
  | d :: ds =>
    match aggregateMax ds with
    | none => some d
    | some m => some (max d m)

/-- The filter body of the airport query in
Route.get_longest_distance_airport: the airport has an outgoing route
of the given distance (Q(outgoing_routes__distance=...)) or an
incoming one (Q(incoming_routes__distance=...)). -/
def touchesDistance (db : DB) (m : Int) (a : Airport) : Bool :=
  db.routes.any (fun r =>
    (r.source == a.code && r.distance == m) ||
    (r.destination == a.code && r.distance == m))

/-- Route.get_longest_distance_airport (models.py lines 134-159): the
maximum route distance, and the first airport (in the default position
ordering) having an outgoing or incoming route of that distance;
(none, none) when no routes exist. -/
def Route.get_longest_distance_airport (db : DB) : Option Airport × Option Int :=
  match aggregateMax (db.routes.map (·.distance)) with
  | none => (none, none)
  | some max_distance =>
    let candidates := (airportsByPosition db).filter (touchesDistance db max_distance)
    (candidates.head?, some max_distance)

/-- Ordering used by Route.objects.order_by('distance'). -/
def Route.distLe (r s : Route) : Prop := r.distance ≤ s.distance

instance : DecidableRel Route.distLe := fun r s =>
  inferInstanceAs (Decidable (r.distance ≤ s.distance))

instance : IsTotal Route Route.distLe := ⟨fun r s => Int.le_total r.distance s.distance⟩

instance : IsTrans Route Route.distLe := ⟨fun _ _ _ h1 h2 => le_trans h1 h2⟩

/-- Route.get_shortest_route (models.py lines 161-169):
Route.objects.order_by('distance').first(). -/
def Route.get_shortest_route (db : DB) : Option Route :=
  (List.insertionSort Route.distLe db.routes).head?

/-- Ordering used by order_by('source__code', 'destination__code') in
ShortestRouteView: lexicographic on the pair of endpoint codes. -/
def Route.displayLe (r s : Route) : Prop :=
  toLex (r.source.data, r.destination.data) ≤ toLex (s.source.data, s.destination.data)

instance : DecidableRel Route.displayLe := fun r s =>
  inferInstanceAs
    (Decidable (toLex (r.source.data, r.destination.data) ≤ toLex (s.source.data, s.destination.data)))

instance : IsTotal Route Route.displayLe := ⟨fun r s =>
  le_total (toLex (r.source.data, r.destination.data)) (toLex (s.source.data, s.destination.data))⟩

instance : IsTrans Route Route.displayLe := ⟨fun _ _ _ h1 h2 => le_trans h1 h2⟩

/-- ShortestRouteView.get_context_data (views.py lines 176-199): the
shortest route, its distance, and every route sharing that distance
ordered by source code then destination code; the empty-table case
yields (none, none, []). -/
def ShortestRouteView.get_context_data (db : DB) :
    Option Route × Option Int × List Route :=
  match Route.get_shortest_route db with
  | none => (none, none, [])
  | some shortest_route =>
    let shortest_distance := shortest_route.distance
    let shortest_routes := List.insertionSort Route.displayLe
      (db.routes.filter (fun r => r.distance == shortest_distance))
    (some shortest_route, some shortest_distance, shortest_routes)

/-- A forms.IntegerField with min_value=1 (used for AirportForm.position,
AirportRouteForm.distance and SearchForm.n): none models a missing or
non-integer submission, and any value below 1 fails the validator. -/
def integerFieldMin1 (v : Option Int) : Option Int :=
  v.bind (fun n => if n < 1 then none else some n)

/-- SearchForm field n (forms.py lines 178-187): IntegerField with
min_value=1. -/
def SearchForm.clean_n (v : Option Int) : Option Int :=
  integerFieldMin1 v

/-- AirportForm.clean_code (forms.py lines 55-62) together with the
CharField declaration (strip, required, min_length=3, max_length=3):
strip the raw value, enforce the length bounds, then uppercase, strip
again, and require exactly 3 alphabetic characters. -/
def AirportForm.clean_code (raw : String) : Option String :=
  let v := pyStrip raw
  if v.length = 0 then none
  else if v.length < 3 then none
  else if 3 < v.length then none
  else
    let code := pyStrip (pyUpper v)
    if code.length ≠ 3 then none
    else if !isalpha code then none
    else some code

/-- AirportForm field name (forms.py lines 31-39): CharField with
strip, required, max_length=100. -/
def AirportForm.clean_name (raw : String) : Option String :=
  let v := pyStrip raw
  if v.length = 0 then none
  else if 100 < v.length then none
  else some v

/-- AirportForm.clean_position (forms.py lines 64-77) on top of the
IntegerField min_value=1 validator: the position must be at least 1 and
not already taken by an existing airport (the new instance has no saved
pk, so nothing is excluded from the check). -/
def AirportForm.clean_position (db : DB) (v : Option Int) : Option Int :=
  (integerFieldMin1 v).bind (fun p =>
    match db.airports.find? (fun a => a.position == p) with
    | some _ => none
    | none => some p)

/-- ModelForm unique validation for Airport: the code column is
declared unique=True, primary_key=True (models.py lines 21-26), so
form validation rejects a code already present in the table. -/
def Airport.validate_unique (db : DB) (code : String) : Bool :=
  db.airports.any (fun a => a.code == code)

/-- AirportForm.is_valid on a submission: all three field cleaners
succeed and the unique check on the code passes; the result is the
unsaved Airport instance. -/
def AirportForm.is_valid (db : DB) (code name : String) (position : Option Int) :
    Option Airport :=
  match AirportForm.clean_code code, AirportForm.clean_name name,
      AirportForm.clean_position db position with
  | some c, some nm, some p =>
    if Airport.validate_unique db c then none else some ⟨c, nm, p⟩
  | _, _, _ => none

/-- Airport.clean (models.py lines 49-64): uppercase the code, require
exactly 3 characters, and require the position not to be taken by a
different airport (exclude(pk=self.pk) excludes rows with the same
code, the primary key). -/
def Airport.clean (db : DB) (a : Airport) : Option Airport :=
  let a2 : Airport := { a with code := pyUpper a.code }
  if a2.code.length ≠ 3 then none
  else
    match db.airports.find? (fun b => b.position == a2.position && b.code != a2.code) with
    | some _ => none
    | none => some a2

/-- Airport.full_clean as invoked by Airport.save (models.py lines
66-69): the custom clean followed by the unique validation of the
primary-key code column. -/
def Airport.full_clean (db : DB) (a : Airport) : Option Airport :=
  (Airport.clean db a).bind (fun a2 =>
    if Airport.validate_unique db a2.code then none else some a2)

/-- Airport.save (models.py lines 66-69): full_clean, then the INSERT;
none models the raised ValidationError. -/
def Airport.save (db : DB) (a : Airport) : Option DB :=
  (Airport.full_clean db a).map (fun a2 =>
    { db with airports := db.airports ++ [a2] })

/-- Outcome of a POST handler: success message, form validation error
page, refusal message of delete_airport, the 404 of get_object_or_404,
or the generic error message produced when the write raises inside the
atomic block and the exception is caught. -/
inductive PostResult where
  | success
  | formError
  | refused
  | notFound
  | saveError
deriving DecidableEq

/-- AddAirportView.post (views.py lines 212-232): validate the form;
on success save inside a transaction, catching any exception (modelled
by persistOk = false) as an error message with the state rolled back. -/
def AddAirportView.post (db : DB) (persistOk : Bool) (code name : String)
    (position : Option Int) : DB × PostResult :=
  match AirportForm.is_valid db code name position with
  | none => (db, PostResult.formError)
  | some a =>
    if persistOk then
      match Airport.save db a with
      | none => (db, PostResult.saveError)
      | some db2 => (db2, PostResult.success)
    else (db, PostResult.saveError)

/-- A forms.ModelChoiceField over Airport.objects.all() (used for the
source, destination and starting_airport selectors): the submitted
value must name an existing airport. -/
def modelChoiceAirport (db : DB) (code : Option String) : Option Airport :=
  code.bind (fun c => db.airports.find? (fun a => a.code == c))

/-- AirportRouteForm.is_valid: both endpoint choices resolve, the
distance passes min_value=1, and clean (forms.py lines 125-148) finds
no circular route and no existing route for the ordered pair (the new
form instance has no pk, so the duplicate check applies). -/
def AirportRouteForm.is_valid (db : DB) (source destination : Option String)
    (distance : Option Int) : Option (Airport × Airport × Int) :=
  match modelChoiceAirport db source, modelChoiceAirport db destination,
      integerFieldMin1 distance with
  | some s, some d, some dist =>
    if s.code == d.code then none
    else if db.routes.any (fun r => r.source == s.code && r.destination == d.code) then none
    else some (s, d, dist)
  | _, _, _ => none

/-- Route.clean (models.py lines 117-127): reject a route from an
airport to itself (foreign keys compare by primary key) and a
non-positive distance. -/
def Route.clean (r : Route) : Option Route :=
  if r.source == r.destination then none
  else if r.distance ≤ 0 then none
  else some r

/-- Model unique validation for Route: unique_together on
(source, destination) (models.py line 109). -/
def Route.validate_unique (db : DB) (r : Route) : Bool :=
  db.routes.any (fun s => s.source == r.source && s.destination == r.destination)

/-- Route.save (models.py lines 129-132): full_clean (the custom clean
plus the unique_together validation), then the INSERT, consuming one
auto-increment id. -/
def Route.save (db : DB) (r : Route) : Option DB :=
  (Route.clean r).bind (fun r2 =>
    if Route.validate_unique db r2 then none
    else some { db with routes := db.routes ++ [r2], nextRouteId := db.nextRouteId + 1 })

/-- AddRouteView.post (views.py lines 44-65): validate the form; on
success build the Route instance and save it inside a transaction,
catching any exception (persistOk = false) as an error message with
the state rolled back. -/
def AddRouteView.post (db : DB) (persistOk : Bool) (source destination : Option String)
    (distance : Option Int) : DB × PostResult :=
  match AirportRouteForm.is_valid db source destination distance with
  | none => (db, PostResult.formError)
  | some (s, d, dist) =>
    if persistOk then
      match Route.save db ⟨db.nextRouteId, s.code, d.code, dist, db.nextRouteId⟩ with
      | none => (db, PostResult.saveError)
      | some db2 => (db2, PostResult.success)
    else (db, PostResult.saveError)

/-- Airport.delete at the model layer: both Route foreign keys declare
on_delete=CASCADE (models.py lines 82-93), so deleting the airport row
also deletes every route referencing it as source or destination. -/
def Airport.delete (db : DB) (code : String) : DB :=
  { db with
    airports := db.airports.filter (fun a => a.code != code),
    routes := db.routes.filter (fun r => r.source != code && r.destination != code) }

/-- delete_airport view (views.py lines 261-295): 404 when no airport
has the given code; refuse when the airport has any outgoing or
incoming route; otherwise delete inside a transaction, catching any
exception (persistOk = false) as an error message. -/
def delete_airport (db : DB) (persistOk : Bool) (code : String) : DB × PostResult :=
  match db.airports.find? (fun a => a.code == code) with
  | none => (db, PostResult.notFound)
  | some airport =>
    let outgoing_count := (db.routes.filter (fun r => r.source == airport.code)).length
    let incoming_count := (db.routes.filter (fun r => r.destination == airport.code)).length
    if outgoing_count + incoming_count > 0 then (db, PostResult.refused)
    else if persistOk then (Airport.delete db airport.code, PostResult.success)
    else (db, PostResult.saveError)

/-- delete_route view (views.py lines 298-316): 404 when no route has
the given pk; otherwise delete inside a transaction, catching any
exception (persistOk = false) as an error message. -/
def delete_route (db : DB) (persistOk : Bool) (pk : Nat) : DB × PostResult :=
  match db.routes.find? (fun r => r.id == pk) with
  | none => (db, PostResult.notFound)
  | some _ =>
    if persistOk then
      ({ db with routes := db.routes.filter (fun r => r.id != pk) }, PostResult.success)
    else (db, PostResult.saveError)

/-- One state transition of the application: any of the four write
endpoints invoked with arbitrary form data, with or without a
persistence failure. -/
inductive Step : DB → DB → Prop where
  | add_airport (db : DB) (persistOk : Bool) (code name : String) (position : Option Int) :
      Step db (AddAirportView.post db persistOk code name position).1
  | add_route (db : DB) (persistOk : Bool) (source destination : Option String)
      (distance : Option Int) :
      Step db (AddRouteView.post db persistOk source destination distance).1
  | del_airport (db : DB) (persistOk : Bool) (code : String) :
      Step db (delete_airport db persistOk code).1
  | del_route (db : DB) (persistOk : Bool) (pk : Nat) :
      Step db (delete_route db persistOk pk).1

/-- States reachable from the empty database through the application's
write endpoints. -/
inductive Reachable : DB → Prop where
  | empty : Reachable DB.empty
  | step {db db' : DB} : Reachable db → Step db db' → Reachable db'

/-- Invariant: no two airport rows share a position (the unique=True
declaration on Airport.position). -/
def positionsUnique (db : DB) : Prop :=
  db.airports.Pairwise (fun a b => a.position ≠ b.position)

/-- Invariant: no two airport rows share a code (the primary key). -/
def codesUnique (db : DB) : Prop :=
  db.airports.Pairwise (fun a b => a.code ≠ b.code)

/-- Invariant: every route references existing airports at both ends. -/
def refIntegrity (db : DB) : Prop :=
  ∀ r ∈ db.routes,
    (∃ a ∈ db.airports, a.code = r.source) ∧ (∃ a ∈ db.airports, a.code = r.destination)

/-- Helper: Char.ofNat on a value in the uppercase ASCII range reads
back as the same value. -/
lemma char_toNat_ofNat_upper (n : Nat) (h1 : 65 ≤ n) (h2 : n ≤ 90) :
    (Char.ofNat n).toNat = n := by
  have hv : n.isValidChar := Or.inl (by omega)
  simp [Char.ofNat, hv, Char.toNat, Char.ofNatAux, UInt32.toNat, BitVec.toNat_ofNatLt]

/-- Char.toUpper is idempotent. -/
lemma char_toUpper_idem (c : Char) : c.toUpper.toUpper = c.toUpper := by
  unfold Char.toUpper
  by_cases h : c.toNat ≥ 97 ∧ c.toNat ≤ 122
  · have ht : (Char.ofNat (c.toNat - 32)).toNat = c.toNat - 32 :=
      char_toNat_ofNat_upper _ (by omega) (by omega)
    rw [if_pos h, ht, if_neg (by omega)]
  · rw [if_neg h, if_neg h]

/-- Every character of a stripped string occurs in the original. -/
lemma mem_of_mem_pyStrip {s : String} {c : Char} (h : c ∈ (pyStrip s).data) :
    c ∈ s.data := by
  simp only [pyStrip, List.mem_reverse] at h
  have h2 := (List.dropWhile_sublist (l := (s.data.dropWhile Char.isWhitespace).reverse)
    Char.isWhitespace).mem h
  rw [List.mem_reverse] at h2
  exact (List.dropWhile_sublist (l := s.data) Char.isWhitespace).mem h2

/-- Mapping a function that fixes every element of a list is the
identity on that list. -/
lemma list_map_eq_self {α : Type} {f : α → α} {l : List α}
    (h : ∀ x ∈ l, f x = x) : l.map f = l := by
  induction l with
  | nil => rfl
  | cons x t ih =>
    simp only [List.map_cons, h x (List.mem_cons_self x t),
      ih (fun y hy => h y (List.mem_cons_of_mem x hy))]

/-- Uppercasing is idempotent on the output of AirportForm.clean_code:
its characters all come from a pyUpper image. -/
lemma pyUpper_pyStrip_pyUpper (v : String) :
    pyUpper (pyStrip (pyUpper v)) = pyStrip (pyUpper v) := by
  have hchar : ∀ c ∈ (pyStrip (pyUpper v)).data, c.toUpper = c := by
    intro c hc
    have hmem : c ∈ (pyUpper v).data := mem_of_mem_pyStrip hc
    simp only [pyUpper, List.mem_map] at hmem
    obtain ⟨c0, _, rfl⟩ := hmem
    exact char_toUpper_idem c0
  show String.mk ((pyStrip (pyUpper v)).data.map Char.toUpper) = pyStrip (pyUpper v)
  rw [list_map_eq_self hchar]

/-- pyUpper preserves string length. -/
lemma pyUpper_length (s : String) : (pyUpper s).length = s.length := by
  simp only [pyUpper, String.length, List.length_map]

/-- The SQL MAX aggregate is none exactly on the empty table. -/
lemma aggregateMax_eq_none_iff (l : List Int) : aggregateMax l = none ↔ l = [] := by
  cases l with
  | nil => simp [aggregateMax]
  | cons d ds =>
    simp only [aggregateMax]
    cases aggregateMax ds <;> simp

/-- The SQL MAX aggregate returns an element of the table. -/
lemma aggregateMax_mem {l : List Int} {m : Int} (h : aggregateMax l = some m) : m ∈ l := by
  induction l generalizing m with
  | nil => simp [aggregateMax] at h
  | cons d ds ih =>
    simp only [aggregateMax] at h
    cases hds : aggregateMax ds with
    | none =>
      rw [hds] at h
      simp at h
      simp [h]
    | some m2 =>
      rw [hds] at h
      simp at h
      rcases max_choice d m2 with hmax | hmax <;> rw [hmax] at h
      · simp [h]
      · exact List.mem_cons_of_mem d (h ▸ ih hds)

/-- The SQL MAX aggregate bounds every element of the table. -/
lemma le_aggregateMax {l : List Int} {m : Int} (h : aggregateMax l = some m) :
    ∀ d ∈ l, d ≤ m := by
  induction l generalizing m with
  | nil => simp
  | cons d ds ih =>
    simp only [aggregateMax] at h
    intro x hx
    cases hds : aggregateMax ds with
    | none =>
      rw [hds] at h
      simp at h
      rcases List.mem_cons.mp hx with rfl | hxd
      · omega
      · rw [aggregateMax_eq_none_iff] at hds
        simp [hds] at hxd
    | some m2 =>
      rw [hds] at h
      simp at h
      rcases List.mem_cons.mp hx with rfl | hxd
      · rw [← h]; exact le_max_left x m2
      · calc x ≤ m2 := ih hds x hxd
          _ ≤ m := by rw [← h]; exact le_max_right d m2


/-- Membership in the position-ordered queryset is membership in the
table. -/
lemma mem_airportsByPosition {db : DB} {a : Airport} :
    a ∈ airportsByPosition db ↔ a ∈ db.airports :=
  (List.perm_insertionSort Airport.posLe db.airports).mem_iff

/-- Position uniqueness transfers to the position-ordered queryset. -/
lemma airportsByPosition_pairwise {db : DB} (hu : positionsUnique db) :
    (airportsByPosition db).Pairwise (fun a b => a.position ≠ b.position) :=
  ((List.perm_insertionSort Airport.posLe db.airports).pairwise_iff
    (fun h => Ne.symm h)).mpr hu

/-- On a list of airports with pairwise-distinct positions, filtering
for the position of a member yields exactly that member. -/
lemma filter_position_eq_singleton {l : List Airport}
    (hu : l.Pairwise (fun a b => a.position ≠ b.position)) {a : Airport}
    (ha : a ∈ l) {p : Int} (hp : a.position = p) :
    l.filter (fun x => x.position == p) = [a] := by
  induction l with
  | nil => cases ha
  | cons b t ih =>
    rcases List.pairwise_cons.mp hu with ⟨hb, ht⟩
    rcases List.mem_cons.mp ha with rfl | hat
    · rw [List.filter_cons_of_pos (by simp [hp])]
      have hnil : t.filter (fun x => x.position == p) = [] := by
        apply List.filter_eq_nil_iff.mpr
        intro x hx
        simp only [beq_iff_eq]
        exact fun hxp => hb x hx (hp.trans hxp.symm)
      rw [hnil]
    · have hbp : b.position ≠ p := fun hbp => hb a hat (hbp.trans (hp.symm))
      rw [List.filter_cons_of_neg (by simp [hbp])]
      exact ih ht hat

/-- Under position uniqueness, the position lookup finds exactly the
member airport with that position. -/
lemma findByPosition_eq_some {db : DB} (hu : positionsUnique db) {a : Airport}
    (ha : a ∈ db.airports) {p : Int} (hp : a.position = p) :
    Airport.findByPosition db p = some a := by
  unfold Airport.findByPosition
  rw [filter_position_eq_singleton (airportsByPosition_pairwise hu)
    (mem_airportsByPosition.mpr ha) hp]
  rfl

/-- When no airport occupies the position, the lookup reports none. -/
lemma findByPosition_eq_none {db : DB} {p : Int}
    (h : ∀ a ∈ db.airports, a.position ≠ p) :
    Airport.findByPosition db p = none := by
  unfold Airport.findByPosition
  rw [List.filter_eq_nil_iff.mpr]
  · rfl
  · intro a haS
    simp only [beq_iff_eq]
    exact h a (mem_airportsByPosition.mp haS)

/-- On a list of airports with pairwise-distinct codes, two members
with the same code are equal. -/
lemma code_injective {l : List Airport}
    (hc : l.Pairwise (fun a b => a.code ≠ b.code)) {a b : Airport}
    (ha : a ∈ l) (hb : b ∈ l) (h : a.code = b.code) : a = b := by
  induction l with
  | nil => cases ha
  | cons x t ih =>
    rcases List.pairwise_cons.mp hc with ⟨hx, ht⟩
    rcases List.mem_cons.mp ha with rfl | hat
    · rcases List.mem_cons.mp hb with rfl | hbt
      · rfl
      · exact absurd h (hx b hbt)
    · rcases List.mem_cons.mp hb with rfl | hbt
      · exact absurd h.symm (hx a hat)
      · exact ih ht hat hbt

/-- The target position with direction right is start + n. -/
lemma target_right (s n : Int) : NthNodeSearchView.target s "right" n = s + n := by
  unfold NthNodeSearchView.target
  rw [if_neg (by decide)]

/-- The target position with direction left is start - n. -/
lemma target_left (s n : Int) : NthNodeSearchView.target s "left" n = s - n := by
  unfold NthNodeSearchView.target
  rw [if_pos rfl]

instance (db : DB) : Decidable (positionsUnique db) := by
  unfold positionsUnique
  infer_instance

instance (db : DB) : Decidable (codesUnique db) := by
  unfold codesUnique
  infer_instance

instance (db : DB) : Decidable (refIntegrity db) := by
  unfold refIntegrity
  infer_instance

/-- C1: for every starting airport with position P and every magnitude
n accepted by the search form, the Nth-node query with direction right
returns the airport at position P + n when one exists and reports
not-found otherwise; direction left does the same for P - n; and the
result depends only on the computed target position, with no
traversal. -/
theorem NthNodeSearchView_post_correct (db : DB) (start : Airport) (n : Int)
    (hstart : start ∈ db.airports) (hn : 1 ≤ n) (hu : positionsUnique db) :
    (∀ a ∈ db.airports, a.position = start.position + n →
      NthNodeSearchView.post db start "right" n = some a) ∧
    ((∀ a ∈ db.airports, a.position ≠ start.position + n) →
      NthNodeSearchView.post db start "right" n = none) ∧
    (∀ a ∈ db.airports, a.position = start.position - n →
      NthNodeSearchView.post db start "left" n = some a) ∧
    ((∀ a ∈ db.airports, a.position ≠ start.position - n) →
      NthNodeSearchView.post db start "left" n = none) ∧
    (∀ (s1 s2 : Airport) (d1 d2 : String) (n1 n2 : Int),
      NthNodeSearchView.target s1.position d1 n1 = NthNodeSearchView.target s2.position d2 n2 →
      NthNodeSearchView.post db s1 d1 n1 = NthNodeSearchView.post db s2 d2 n2) := by
  refine ⟨?_, ?_, ?_, ?_, ?_⟩
  · intro a ha hp
    unfold NthNodeSearchView.post
    rw [target_right]
    exact findByPosition_eq_some hu ha hp
  · intro h
    unfold NthNodeSearchView.post
    rw [target_right]
    exact findByPosition_eq_none h
  · intro a ha hp
    unfold NthNodeSearchView.post
    rw [target_left]
    exact findByPosition_eq_some hu ha hp
  · intro h
    unfold NthNodeSearchView.post
    rw [target_left]
    exact findByPosition_eq_none h
  · intro s1 s2 d1 d2 n1 n2 h
    unfold NthNodeSearchView.post
    rw [h]

/-- Witness for C1 on a concrete database: from JFK (position 1), one
step right reaches LAX (position 2) and one step left finds nothing. -/
theorem NthNodeSearchView_post_correct_witness :
    NthNodeSearchView.post ⟨[⟨"JFK", "Kennedy", 1⟩, ⟨"LAX", "Los Angeles", 2⟩], [], 0⟩
      ⟨"JFK", "Kennedy", 1⟩ "right" 1 = some ⟨"LAX", "Los Angeles", 2⟩ ∧
    NthNodeSearchView.post ⟨[⟨"JFK", "Kennedy", 1⟩, ⟨"LAX", "Los Angeles", 2⟩], [], 0⟩
      ⟨"JFK", "Kennedy", 1⟩ "left" 1 = none := by
  have h := NthNodeSearchView_post_correct
    ⟨[⟨"JFK", "Kennedy", 1⟩, ⟨"LAX", "Los Angeles", 2⟩], [], 0⟩
    ⟨"JFK", "Kennedy", 1⟩ 1 (by decide) (by decide) (by decide)
  exact ⟨h.1 ⟨"LAX", "Los Angeles", 2⟩ (by decide) (by decide), h.2.2.2.1 (by decide)⟩

/-- C10: the search form only accepts magnitudes of at least 1
(min_value=1), so every submission reaching the query has n at least 1,
and an offset of zero is rejected by the form. -/
theorem SearchForm_clean_n_min (v : Option Int) (n : Int)
    (h : SearchForm.clean_n v = some n) :
    1 ≤ n ∧ v = some n ∧ SearchForm.clean_n (some 0) = none := by
  unfold SearchForm.clean_n integerFieldMin1 at h
  cases v with
  | none => simp at h
  | some m =>
    simp only [Option.some_bind] at h
    split_ifs at h with hm
    have hmn : m = n := Option.some.inj h
    subst hmn
    exact ⟨by omega, rfl, by decide⟩

/-- Witness for C10: the form accepts n = 3 and that value is at
least 1, while n = 0 is rejected. -/
theorem SearchForm_clean_n_min_witness :
    1 ≤ (3 : Int) ∧ (some (3 : Int) = some 3) ∧ SearchForm.clean_n (some 0) = none :=
  SearchForm_clean_n_min (some 3) 3 (by decide)

/-- The shortest-route query returns none exactly on an empty routes
table. -/
lemma get_shortest_route_eq_none_iff (db : DB) :
    Route.get_shortest_route db = none ↔ db.routes = [] := by
  unfold Route.get_shortest_route
  rw [List.head?_eq_none_iff]
  constructor
  · intro h
    exact List.Perm.eq_nil ((List.perm_insertionSort Route.distLe db.routes).symm.trans (h ▸ List.Perm.refl _))
  · intro h
    rw [h]
    rfl

/-- C3: the shortest-route query returns none exactly when no routes
exist; otherwise it returns a route of globally minimal distance, and
the shortest-route view collects exactly the routes sharing that
minimal distance, ordered by source airport code and then destination
airport code. -/
theorem shortest_route_correct (db : DB) :
    (Route.get_shortest_route db = none ↔ db.routes = []) ∧
    (∀ r, Route.get_shortest_route db = some r →
      r ∈ db.routes ∧
      (∀ s ∈ db.routes, r.distance ≤ s.distance) ∧
      ∃ lst, ShortestRouteView.get_context_data db = (some r, some r.distance, lst) ∧
        (∀ s, s ∈ lst ↔ (s ∈ db.routes ∧ s.distance = r.distance)) ∧
        List.Sorted Route.displayLe lst) := by
  constructor
  · exact get_shortest_route_eq_none_iff db
  · intro r h
    have hGet := h
    unfold Route.get_shortest_route at h
    have hperm := List.perm_insertionSort Route.distLe db.routes
    have hsorted := List.sorted_insertionSort Route.distLe db.routes
    cases hs : List.insertionSort Route.distLe db.routes with
    | nil =>
      rw [hs] at h
      cases h
    | cons x xs =>
      rw [hs] at h hperm hsorted
      have hxr : x = r := Option.some.inj h
      subst hxr
      have hmem : x ∈ db.routes := hperm.mem_iff.mp (List.mem_cons_self x xs)
      refine ⟨hmem, ?_, ?_⟩
      · intro s hsmem
        rcases List.mem_cons.mp (hperm.mem_iff.mpr hsmem) with rfl | hsx
        · exact le_refl _
        · exact List.rel_of_sorted_cons hsorted s hsx
      · refine ⟨List.insertionSort Route.displayLe
          (db.routes.filter (fun t => t.distance == x.distance)), ?_, ?_, ?_⟩
        · unfold ShortestRouteView.get_context_data
          rw [hGet]
        · intro s
          rw [(List.perm_insertionSort Route.displayLe _).mem_iff, List.mem_filter]
          simp only [beq_iff_eq]
        · exact List.sorted_insertionSort Route.displayLe _

/-- Witness for C3 on a concrete database with routes of distance 360
and 500: the query returns the 360 route, which is minimal, and the
view lists exactly the routes of distance 360 in display order. -/
theorem shortest_route_correct_witness :
    (⟨0, "JFK", "LAX", 360, 0⟩ : Route) ∈
      (⟨[], [⟨0, "JFK", "LAX", 360, 0⟩, ⟨1, "LAX", "ORD", 500, 1⟩], 2⟩ : DB).routes ∧
    (∀ s ∈ (⟨[], [⟨0, "JFK", "LAX", 360, 0⟩, ⟨1, "LAX", "ORD", 500, 1⟩], 2⟩ : DB).routes,
      (⟨0, "JFK", "LAX", 360, 0⟩ : Route).distance ≤ s.distance) ∧
    ∃ lst, ShortestRouteView.get_context_data
        ⟨[], [⟨0, "JFK", "LAX", 360, 0⟩, ⟨1, "LAX", "ORD", 500, 1⟩], 2⟩ =
        (some ⟨0, "JFK", "LAX", 360, 0⟩, some (⟨0, "JFK", "LAX", 360, 0⟩ : Route).distance, lst) ∧
      (∀ s, s ∈ lst ↔
        (s ∈ (⟨[], [⟨0, "JFK", "LAX", 360, 0⟩, ⟨1, "LAX", "ORD", 500, 1⟩], 2⟩ : DB).routes ∧
          s.distance = (⟨0, "JFK", "LAX", 360, 0⟩ : Route).distance)) ∧
      List.Sorted Route.displayLe lst :=
  (shortest_route_correct ⟨[], [⟨0, "JFK", "LAX", 360, 0⟩, ⟨1, "LAX", "ORD", 500, 1⟩], 2⟩).2
    ⟨0, "JFK", "LAX", 360, 0⟩ (by decide)

/-- C2: the longest-route query returns (none, none) exactly when no
routes exist; otherwise it returns the maximum distance over all routes
together with an airport that is the source or the destination of a
route attaining that maximum. -/
theorem Route_get_longest_distance_airport_correct (db : DB) (href : refIntegrity db) :
    (Route.get_longest_distance_airport db = (none, none) ↔ db.routes = []) ∧
    (db.routes ≠ [] →
      ∃ a m, Route.get_longest_distance_airport db = (some a, some m) ∧
        (∀ r ∈ db.routes, r.distance ≤ m) ∧
        (∃ r ∈ db.routes, r.distance = m ∧ (r.source = a.code ∨ r.destination = a.code))) := by
  cases hmax : aggregateMax (db.routes.map (·.distance)) with
  | none =>
    have hnil : db.routes = [] := by
      have hm := (aggregateMax_eq_none_iff _).mp hmax
      exact List.map_eq_nil_iff.mp hm
    constructor
    · constructor
      · intro _
        exact hnil
      · intro _
        unfold Route.get_longest_distance_airport
        rw [hmax]
    · intro hne
      exact absurd hnil hne
  | some m =>
    have hresult : Route.get_longest_distance_airport db =
        (((airportsByPosition db).filter (touchesDistance db m)).head?, some m) := by
      unfold Route.get_longest_distance_airport
      rw [hmax]
    have hmem := aggregateMax_mem hmax
    obtain ⟨r0, hr0mem, hr0dist⟩ := List.mem_map.mp hmem
    obtain ⟨⟨a0, ha0mem, ha0code⟩, -⟩ := href r0 hr0mem
    have ha0cand : a0 ∈ (airportsByPosition db).filter (touchesDistance db m) := by
      rw [List.mem_filter]
      refine ⟨mem_airportsByPosition.mpr ha0mem, ?_⟩
      unfold touchesDistance
      rw [List.any_eq_true]
      exact ⟨r0, hr0mem, by simp [ha0code, hr0dist]⟩
    constructor
    · constructor
      · intro hcontra
        rw [hresult] at hcontra
        exact absurd (congrArg Prod.snd hcontra) (by simp)
      · intro hnil
        rw [hnil] at hr0mem
        cases hr0mem
    · intro _
      cases hc : (airportsByPosition db).filter (touchesDistance db m) with
      | nil =>
        rw [hc] at ha0cand
        cases ha0cand
      | cons a rest =>
        refine ⟨a, m, ?_, ?_, ?_⟩
        · rw [hresult, hc]
          rfl
        · intro r hr
          exact le_aggregateMax hmax _ (List.mem_map_of_mem _ hr)
        · have hacand : a ∈ (airportsByPosition db).filter (touchesDistance db m) :=
            hc ▸ List.mem_cons_self a rest
          rw [List.mem_filter] at hacand
          obtain ⟨-, hany⟩ := hacand
          unfold touchesDistance at hany
          rw [List.any_eq_true] at hany
          obtain ⟨r, hrmem, hcond⟩ := hany
          simp only [Bool.or_eq_true, Bool.and_eq_true, beq_iff_eq] at hcond
          rcases hcond with ⟨hsrc, hdist⟩ | ⟨hdst, hdist⟩
          · exact ⟨r, hrmem, hdist, Or.inl hsrc⟩
          · exact ⟨r, hrmem, hdist, Or.inr hdst⟩

/-- Witness for C2 on the spec's example data, JFK to LAX at 360 and
LAX to ORD at 500: the maximum distance is 500 and the returned
airport touches a 500 route. -/
theorem Route_get_longest_distance_airport_correct_witness :
    ∃ a m, Route.get_longest_distance_airport
        ⟨[⟨"JFK", "Kennedy", 1⟩, ⟨"LAX", "Los Angeles", 2⟩, ⟨"ORD", "Chicago", 3⟩],
          [⟨0, "JFK", "LAX", 360, 0⟩, ⟨1, "LAX", "ORD", 500, 1⟩], 2⟩ = (some a, some m) ∧
      (∀ r ∈ (⟨[⟨"JFK", "Kennedy", 1⟩, ⟨"LAX", "Los Angeles", 2⟩, ⟨"ORD", "Chicago", 3⟩],
          [⟨0, "JFK", "LAX", 360, 0⟩, ⟨1, "LAX", "ORD", 500, 1⟩], 2⟩ : DB).routes,
        r.distance ≤ m) ∧
      (∃ r ∈ (⟨[⟨"JFK", "Kennedy", 1⟩, ⟨"LAX", "Los Angeles", 2⟩, ⟨"ORD", "Chicago", 3⟩],
          [⟨0, "JFK", "LAX", 360, 0⟩, ⟨1, "LAX", "ORD", 500, 1⟩], 2⟩ : DB).routes,
        r.distance = m ∧ (r.source = a.code ∨ r.destination = a.code)) :=
  (Route_get_longest_distance_airport_correct
    ⟨[⟨"JFK", "Kennedy", 1⟩, ⟨"LAX", "Los Angeles", 2⟩, ⟨"ORD", "Chicago", 3⟩],
      [⟨0, "JFK", "LAX", 360, 0⟩, ⟨1, "LAX", "ORD", 500, 1⟩], 2⟩ (by decide)).2 (by decide)

/-- Looking up an airport by its own code finds exactly it, under code
uniqueness. -/
lemma find_by_code_self {db : DB} (hc : codesUnique db) {a : Airport}
    (ha : a ∈ db.airports) :
    db.airports.find? (fun x => x.code == a.code) = some a := by
  cases hf : db.airports.find? (fun x => x.code == a.code) with
  | none =>
    have := List.find?_eq_none.mp hf a ha
    simp at this
  | some b =>
    have hbcode : b.code = a.code := by
      have := List.find?_some hf
      simpa using this
    have hbmem : b ∈ db.airports := List.mem_of_find?_eq_some hf
    rw [code_injective hc hbmem ha hbcode]

/-- C4: deleting an airport through the view is refused, leaving the
database unchanged, whenever some route references it as source or
destination; when no route references it, the deletion succeeds and
removes exactly that airport, leaving the routes untouched. -/
theorem delete_airport_guard (db : DB) (a : Airport) (persistOk : Bool)
    (ha : a ∈ db.airports) (hc : codesUnique db) :
    ((∃ r ∈ db.routes, r.source = a.code ∨ r.destination = a.code) →
      delete_airport db persistOk a.code = (db, PostResult.refused)) ∧
    ((∀ r ∈ db.routes, r.source ≠ a.code ∧ r.destination ≠ a.code) → persistOk = true →
      (delete_airport db persistOk a.code).2 = PostResult.success ∧
      (delete_airport db persistOk a.code).1.routes = db.routes ∧
      (delete_airport db persistOk a.code).1.nextRouteId = db.nextRouteId ∧
      a ∉ (delete_airport db persistOk a.code).1.airports ∧
      (∀ b ∈ db.airports, b ≠ a → b ∈ (delete_airport db persistOk a.code).1.airports) ∧
      (∀ b ∈ (delete_airport db persistOk a.code).1.airports, b ∈ db.airports)) := by
  have hfa := find_by_code_self hc ha
  constructor
  · rintro ⟨r, hr, hsd⟩
    have hpos : (db.routes.filter (fun t => t.source == a.code)).length +
        (db.routes.filter (fun t => t.destination == a.code)).length > 0 := by
      rcases hsd with hsrc | hdst
      · have : r ∈ db.routes.filter (fun t => t.source == a.code) :=
          List.mem_filter.mpr ⟨hr, by simp [hsrc]⟩
        have := List.length_pos.mpr (List.ne_nil_of_mem this)
        omega
      · have : r ∈ db.routes.filter (fun t => t.destination == a.code) :=
          List.mem_filter.mpr ⟨hr, by simp [hdst]⟩
        have := List.length_pos.mpr (List.ne_nil_of_mem this)
        omega
    unfold delete_airport
    rw [hfa]
    simp only [if_pos hpos]
  · intro hnone hp
    subst hp
    have h1 : db.routes.filter (fun t => t.source == a.code) = [] := by
      apply List.filter_eq_nil_iff.mpr
      intro t ht
      simp only [beq_iff_eq]
      exact (hnone t ht).1
    have h2 : db.routes.filter (fun t => t.destination == a.code) = [] := by
      apply List.filter_eq_nil_iff.mpr
      intro t ht
      simp only [beq_iff_eq]
      exact (hnone t ht).2
    have hneg : ¬((db.routes.filter (fun t => t.source == a.code)).length +
        (db.routes.filter (fun t => t.destination == a.code)).length > 0) := by
      rw [h1, h2]
      simp
    have hres : delete_airport db true a.code = (Airport.delete db a.code, PostResult.success) := by
      unfold delete_airport
      rw [hfa]
      simp only [if_neg hneg]
      simp
    rw [hres]
    refine ⟨rfl, ?_, rfl, ?_, ?_, ?_⟩
    · show db.routes.filter (fun r => r.source != a.code && r.destination != a.code) = db.routes
      apply List.filter_eq_self.mpr
      intro t ht
      have := hnone t ht
      simp only [bne_iff_ne, Bool.and_eq_true, ne_eq, decide_eq_true_eq]
      exact ⟨by simpa using this.1, by simpa using this.2⟩
    · intro hmem
      have := (List.mem_filter.mp hmem).2
      simp at this
    · intro b hb hba
      show b ∈ db.airports.filter (fun x => x.code != a.code)
      apply List.mem_filter.mpr
      refine ⟨hb, ?_⟩
      have hbc : b.code ≠ a.code := fun h => hba (code_injective hc hb ha h)
      simpa using hbc
    · intro b hb
      exact (List.mem_filter.mp hb).1

/-- Witness for C4: deleting LAX is refused while a route touches it,
and deleting the isolated ORD succeeds and removes exactly it. -/
theorem delete_airport_guard_witness :
    delete_airport ⟨[⟨"LAX", "Los Angeles", 2⟩, ⟨"ORD", "Chicago", 3⟩],
        [⟨0, "LAX", "ORD", 500, 0⟩], 1⟩ true "LAX" =
      (⟨[⟨"LAX", "Los Angeles", 2⟩, ⟨"ORD", "Chicago", 3⟩], [⟨0, "LAX", "ORD", 500, 0⟩], 1⟩,
        PostResult.refused) ∧
    (delete_airport ⟨[⟨"LAX", "Los Angeles", 2⟩, ⟨"ORD", "Chicago", 3⟩], [], 1⟩ true "ORD").2 =
      PostResult.success ∧
    (⟨"ORD", "Chicago", 3⟩ : Airport) ∉
      (delete_airport ⟨[⟨"LAX", "Los Angeles", 2⟩, ⟨"ORD", "Chicago", 3⟩], [], 1⟩ true "ORD").1.airports := by
  constructor
  · exact (delete_airport_guard
      ⟨[⟨"LAX", "Los Angeles", 2⟩, ⟨"ORD", "Chicago", 3⟩], [⟨0, "LAX", "ORD", 500, 0⟩], 1⟩
      ⟨"LAX", "Los Angeles", 2⟩ true (by decide) (by decide)).1
      ⟨⟨0, "LAX", "ORD", 500, 0⟩, by decide, Or.inl rfl⟩
  · have h := (delete_airport_guard
      ⟨[⟨"LAX", "Los Angeles", 2⟩, ⟨"ORD", "Chicago", 3⟩], [], 1⟩
      ⟨"ORD", "Chicago", 3⟩ true (by decide) (by decide)).2 (by decide) rfl
    exact ⟨h.1, h.2.2.2.1⟩

/-- The min_value=1 validator succeeds exactly on a submitted integer
of at least 1, returning it unchanged. -/
lemma integerFieldMin1_eq_some_iff (v : Option Int) (n : Int) :
    integerFieldMin1 v = some n ↔ v = some n ∧ 1 ≤ n := by
  unfold integerFieldMin1
  cases v with
  | none => simp
  | some m =>
    simp only [Option.some_bind, Option.some.injEq]
    constructor
    · intro h
      split_ifs at h with hm
      obtain rfl := Option.some.inj h
      exact ⟨rfl, by omega⟩
    · rintro ⟨rfl, hn⟩
      rw [if_neg (by omega)]

/-- The min_value=1 validator fails exactly on a missing value or an
integer below 1. -/
lemma integerFieldMin1_eq_none_iff (v : Option Int) :
    integerFieldMin1 v = none ↔ v = none ∨ ∃ n, v = some n ∧ n < 1 := by
  unfold integerFieldMin1
  cases v with
  | none => simp
  | some m =>
    simp only [Option.some_bind]
    constructor
    · intro h
      split_ifs at h with hm
      exact Or.inr ⟨m, rfl, hm⟩
    · rintro (h | ⟨n, hn, hlt⟩)
      · cases h
      · rw [Option.some.inj hn]
        rw [if_pos hlt]

/-- Decomposition of a successful route-form validation into the five
facts it established. -/
lemma AirportRouteForm_is_valid_some {db : DB} {src dst : Option String}
    {dist : Option Int} {s d : Airport} {dv : Int}
    (h : AirportRouteForm.is_valid db src dst dist = some (s, d, dv)) :
    modelChoiceAirport db src = some s ∧ modelChoiceAirport db dst = some d ∧
    integerFieldMin1 dist = some dv ∧ (s.code == d.code) = false ∧
    (db.routes.any fun r => r.source == s.code && r.destination == d.code) = false := by
  cases hs : modelChoiceAirport db src with
  | none =>
    have hnone : AirportRouteForm.is_valid db src dst dist = none := by
      unfold AirportRouteForm.is_valid
      cases hd : modelChoiceAirport db dst <;> cases hv : integerFieldMin1 dist <;>
        rw [hs]
    rw [hnone] at h
    cases h
  | some s0 =>
    cases hd : modelChoiceAirport db dst with
    | none =>
      have hnone : AirportRouteForm.is_valid db src dst dist = none := by
        unfold AirportRouteForm.is_valid
        cases hv : integerFieldMin1 dist <;> rw [hs, hd]
      rw [hnone] at h
      cases h
    | some d0 =>
      cases hv : integerFieldMin1 dist with
      | none =>
        have hnone : AirportRouteForm.is_valid db src dst dist = none := by
          unfold AirportRouteForm.is_valid
          rw [hs, hd, hv]
        rw [hnone] at h
        cases h
      | some dv0 =>
        have hred : AirportRouteForm.is_valid db src dst dist =
            (if s0.code == d0.code then none
             else if db.routes.any (fun r => r.source == s0.code && r.destination == d0.code)
               then none
             else some (s0, d0, dv0)) := by
          unfold AirportRouteForm.is_valid
          rw [hs, hd, hv]
        rw [hred] at h
        by_cases h1 : (s0.code == d0.code) = true
        · rw [if_pos h1] at h
          cases h
        · rw [if_neg h1] at h
          by_cases h2 : (db.routes.any fun r => r.source == s0.code && r.destination == d0.code) = true
          · rw [if_pos h2] at h
            cases h
          · rw [if_neg h2] at h
            obtain ⟨rfl, rfl, rfl⟩ : s0 = s ∧ d0 = d ∧ dv0 = dv := by
              have hinj := Option.some.inj h
              exact ⟨congrArg Prod.fst hinj, congrArg (fun x => x.2.1) hinj,
                congrArg (fun x => x.2.2) hinj⟩
            exact ⟨rfl, rfl, rfl, Bool.not_eq_true _ ▸ h1, Bool.not_eq_true _ ▸ h2⟩

/-- The route form rejects a submission exactly when an endpoint is
missing or names no airport, the distance is missing or below 1, both
endpoints are the same airport, or a route for the ordered pair
already exists. -/
lemma AirportRouteForm_is_valid_none_iff (db : DB) (src dst : Option String)
    (dist : Option Int) :
    AirportRouteForm.is_valid db src dst dist = none ↔
      (modelChoiceAirport db src = none ∨
       modelChoiceAirport db dst = none ∨
       dist = none ∨
       (∃ dv, dist = some dv ∧ dv < 1) ∨
       (∃ s d, modelChoiceAirport db src = some s ∧ modelChoiceAirport db dst = some d ∧
         s.code = d.code) ∨
       (∃ s d, modelChoiceAirport db src = some s ∧ modelChoiceAirport db dst = some d ∧
         ∃ r ∈ db.routes, r.source = s.code ∧ r.destination = d.code)) := by
  unfold AirportRouteForm.is_valid
  cases hs : modelChoiceAirport db src with
  | none => exact iff_of_true rfl (Or.inl rfl)
  | some s =>
    cases hd : modelChoiceAirport db dst with
    | none => exact iff_of_true rfl (Or.inr (Or.inl rfl))
    | some d =>
      cases hv : integerFieldMin1 dist with
      | none =>
        refine iff_of_true rfl ?_
        rcases (integerFieldMin1_eq_none_iff dist).mp hv with h3 | ⟨dv, hdv, hlt⟩
        · exact Or.inr (Or.inr (Or.inl h3))
        · exact Or.inr (Or.inr (Or.inr (Or.inl ⟨dv, hdv, hlt⟩)))
      | some dv =>
        show (if s.code == d.code then none
          else if db.routes.any (fun r => r.source == s.code && r.destination == d.code)
            then none
          else some (s, d, dv)) = none ↔ _
        by_cases h1 : (s.code == d.code) = true
        · rw [if_pos h1]
          exact iff_of_true rfl (Or.inr (Or.inr (Or.inr (Or.inr
            (Or.inl ⟨s, d, rfl, rfl, beq_iff_eq.mp h1⟩)))))
        · rw [if_neg h1]
          by_cases h2 : (db.routes.any fun r => r.source == s.code && r.destination == d.code) = true
          · rw [if_pos h2]
            refine iff_of_true rfl ?_
            obtain ⟨r, hr, hcond⟩ := List.any_eq_true.mp h2
            rw [Bool.and_eq_true, beq_iff_eq, beq_iff_eq] at hcond
            exact Or.inr (Or.inr (Or.inr (Or.inr (Or.inr
              ⟨s, d, rfl, rfl, r, hr, hcond.1, hcond.2⟩))))
          · rw [if_neg h2]
            refine iff_of_false (by simp) ?_
            rintro (h | h | h | ⟨dv2, hdv2, hlt⟩ | ⟨s2, d2, hs2, hd2, heq⟩ |
              ⟨s2, d2, hs2, hd2, r, hr, hsrc, hdst⟩)
            · exact Option.noConfusion h
            · exact Option.noConfusion h
            · rw [h] at hv
              cases hv
            · rw [hdv2] at hv
              unfold integerFieldMin1 at hv
              rw [Option.some_bind, if_pos hlt] at hv
              cases hv
            · obtain rfl : s = s2 := Option.some.inj hs2
              obtain rfl : d = d2 := Option.some.inj hd2
              exact h1 (beq_iff_eq.mpr heq)
            · obtain rfl : s = s2 := Option.some.inj hs2
              obtain rfl : d = d2 := Option.some.inj hd2
              exact h2 (List.any_eq_true.mpr ⟨r, hr, by simp [hsrc, hdst]⟩)

/-- A form-validated route saves successfully: the model clean and the
unique_together validation re-check what the form already established,
and the row is appended. -/
lemma Route_save_of_form_valid {db : DB} {src dst : Option String} {dist : Option Int}
    {s d : Airport} {dv : Int}
    (h : AirportRouteForm.is_valid db src dst dist = some (s, d, dv)) :
    Route.save db ⟨db.nextRouteId, s.code, d.code, dv, db.nextRouteId⟩ =
      some { db with
        routes := db.routes ++ [⟨db.nextRouteId, s.code, d.code, dv, db.nextRouteId⟩],
        nextRouteId := db.nextRouteId + 1 } := by
  obtain ⟨_, _, hv, hne, hdup⟩ := AirportRouteForm_is_valid_some h
  have hdv : 1 ≤ dv := ((integerFieldMin1_eq_some_iff dist dv).mp hv).2
  show (Route.clean ⟨db.nextRouteId, s.code, d.code, dv, db.nextRouteId⟩).bind _ = _
  unfold Route.clean
  rw [if_neg (by simp [hne]), if_neg (by simp; omega), Option.some_bind,
    if_neg (by unfold Route.validate_unique; simp [hdup])]

/-- C5: a route-registration submission is rejected with a validation
error exactly when an endpoint is missing (or names no airport), the
source equals the destination, the distance is not a positive integer,
or a route with the same ordered pair already exists; in every other
case the route is created. -/
theorem AddRouteView_post_validation (db : DB) (src dst : Option String) (dist : Option Int) :
    ((AddRouteView.post db true src dst dist).2 = PostResult.formError ↔
      (modelChoiceAirport db src = none ∨
       modelChoiceAirport db dst = none ∨
       dist = none ∨
       (∃ dv, dist = some dv ∧ dv < 1) ∨
       (∃ s d, modelChoiceAirport db src = some s ∧ modelChoiceAirport db dst = some d ∧
         s.code = d.code) ∨
       (∃ s d, modelChoiceAirport db src = some s ∧ modelChoiceAirport db dst = some d ∧
         ∃ r ∈ db.routes, r.source = s.code ∧ r.destination = d.code))) ∧
    ((AddRouteView.post db true src dst dist).2 = PostResult.formError ∨
      (AddRouteView.post db true src dst dist).2 = PostResult.success) ∧
    (∀ s d dv, AirportRouteForm.is_valid db src dst dist = some (s, d, dv) →
      AddRouteView.post db true src dst dist =
        ({ db with
            routes := db.routes ++ [⟨db.nextRouteId, s.code, d.code, dv, db.nextRouteId⟩],
            nextRouteId := db.nextRouteId + 1 }, PostResult.success)) := by
  have hpost : ∀ s d dv, AirportRouteForm.is_valid db src dst dist = some (s, d, dv) →
      AddRouteView.post db true src dst dist =
        ({ db with
            routes := db.routes ++ [⟨db.nextRouteId, s.code, d.code, dv, db.nextRouteId⟩],
            nextRouteId := db.nextRouteId + 1 }, PostResult.success) := by
    intro s d dv hvalid
    unfold AddRouteView.post
    rw [hvalid]
    show (match Route.save db ⟨db.nextRouteId, s.code, d.code, dv, db.nextRouteId⟩ with
      | none => (db, PostResult.saveError)
      | some db2 => (db2, PostResult.success)) = _
    rw [Route_save_of_form_valid hvalid]
  refine ⟨?_, ?_, hpost⟩
  · cases hvalid : AirportRouteForm.is_valid db src dst dist with
    | none =>
      have hpostn : AddRouteView.post db true src dst dist = (db, PostResult.formError) := by
        unfold AddRouteView.post
        rw [hvalid]
      rw [hpostn]
      exact iff_of_true rfl ((AirportRouteForm_is_valid_none_iff db src dst dist).mp hvalid)
    | some t =>
      obtain ⟨s, d, dv⟩ := t
      rw [hpost s d dv hvalid]
      refine iff_of_false (by simp) ?_
      intro hR
      rw [← AirportRouteForm_is_valid_none_iff db src dst dist] at hR
      rw [hvalid] at hR
      cases hR
  · cases hvalid : AirportRouteForm.is_valid db src dst dist with
    | none =>
      left
      unfold AddRouteView.post
      rw [hvalid]
    | some t =>
      obtain ⟨s, d, dv⟩ := t
      right
      rw [hpost s d dv hvalid]

/-- Witness for C5: with airports JFK and ORD present and no routes, a
valid submission ORD to JFK of distance 700 creates exactly that
route. -/
theorem AddRouteView_post_validation_witness :
    AddRouteView.post ⟨[⟨"JFK", "Kennedy", 1⟩, ⟨"ORD", "Chicago", 3⟩], [], 0⟩ true
        (some "ORD") (some "JFK") (some 700) =
      (⟨[⟨"JFK", "Kennedy", 1⟩, ⟨"ORD", "Chicago", 3⟩], [⟨0, "ORD", "JFK", 700, 0⟩], 1⟩,
        PostResult.success) :=
  (AddRouteView_post_validation ⟨[⟨"JFK", "Kennedy", 1⟩, ⟨"ORD", "Chicago", 3⟩], [], 0⟩
    (some "ORD") (some "JFK") (some 700)).2.2
    ⟨"ORD", "Chicago", 3⟩ ⟨"JFK", "Kennedy", 1⟩ 700 (by decide)

/-- Decomposition of a successful code cleaning: the stored code is the
stripped uppercased submission, has exactly 3 characters, is
alphabetic, and is a fixed point of uppercasing. -/
lemma clean_code_some {raw c : String} (h : AirportForm.clean_code raw = some c) :
    c = pyStrip (pyUpper (pyStrip raw)) ∧ c.length = 3 ∧ isalpha c = true ∧ pyUpper c = c := by
  replace h : (if (pyStrip raw).length = 0 then none
      else if (pyStrip raw).length < 3 then none
      else if 3 < (pyStrip raw).length then none
      else if (pyStrip (pyUpper (pyStrip raw))).length ≠ 3 then none
      else if !isalpha (pyStrip (pyUpper (pyStrip raw))) then none
      else some (pyStrip (pyUpper (pyStrip raw)))) = some c := h
  split_ifs at h with h1 h2 h3 h4 h5
  obtain rfl : c = pyStrip (pyUpper (pyStrip raw)) := (Option.some.inj h).symm
  refine ⟨rfl, by omega, ?_, pyUpper_pyStrip_pyUpper _⟩
  cases hb : isalpha (pyStrip (pyUpper (pyStrip raw))) with
  | false => exact absurd (by rw [hb]; rfl) h5
  | true => rfl

/-- The name field cleaning succeeds exactly on a name that is
non-empty and at most 100 characters after stripping, and stores the
stripped value. -/
lemma clean_name_some_iff (raw nm : String) :
    AirportForm.clean_name raw = some nm ↔
      nm = pyStrip raw ∧ (pyStrip raw).length ≠ 0 ∧ (pyStrip raw).length ≤ 100 := by
  constructor
  · intro h
    replace h : (if (pyStrip raw).length = 0 then none
        else if 100 < (pyStrip raw).length then none
        else some (pyStrip raw)) = some nm := h
    split_ifs at h with h1 h2
    exact ⟨(Option.some.inj h).symm, h1, by omega⟩
  · rintro ⟨rfl, h1, h2⟩
    unfold AirportForm.clean_name
    rw [if_neg h1, if_neg (by omega)]

/-- The position field cleaning succeeds exactly on a submitted
integer of at least 1 not used by any existing airport. -/
lemma clean_position_eq_some_iff (db : DB) (pos : Option Int) (p : Int) :
    AirportForm.clean_position db pos = some p ↔
      pos = some p ∧ 1 ≤ p ∧ ∀ a ∈ db.airports, a.position ≠ p := by
  unfold AirportForm.clean_position
  constructor
  · intro h
    cases hv : integerFieldMin1 pos with
    | none =>
      rw [hv, Option.none_bind] at h
      cases h
    | some q =>
      rw [hv, Option.some_bind] at h
      obtain ⟨hq, h1q⟩ := (integerFieldMin1_eq_some_iff pos q).mp hv
      cases hf : db.airports.find? (fun a => a.position == q) with
      | some b =>
        rw [hf] at h
        cases h
      | none =>
        rw [hf] at h
        obtain rfl : q = p := Option.some.inj h
        refine ⟨hq, h1q, ?_⟩
        intro a ha hap
        have hcon := List.find?_eq_none.mp hf a ha
        simp [hap] at hcon
  · rintro ⟨rfl, h1, hall⟩
    have hv : integerFieldMin1 (some p) = some p :=
      (integerFieldMin1_eq_some_iff _ _).mpr ⟨rfl, h1⟩
    rw [hv, Option.some_bind]
    have hf : db.airports.find? (fun a => a.position == p) = none := by
      apply List.find?_eq_none.mpr
      intro a ha
      simp [hall a ha]
    rw [hf]

/-- Decomposition of a successful airport-form validation into the
four facts it established. -/
lemma AirportForm_is_valid_some {db : DB} {code name : String} {pos : Option Int}
    {a : Airport} (h : AirportForm.is_valid db code name pos = some a) :
    AirportForm.clean_code code = some a.code ∧
    AirportForm.clean_name name = some a.name ∧
    AirportForm.clean_position db pos = some a.position ∧
    Airport.validate_unique db a.code = false := by
  cases hc : AirportForm.clean_code code with
  | none =>
    have hnone : AirportForm.is_valid db code name pos = none := by
      unfold AirportForm.is_valid
      cases hn : AirportForm.clean_name name <;>
        cases hp : AirportForm.clean_position db pos <;> rw [hc]
    rw [hnone] at h
    cases h
  | some c =>
    cases hn : AirportForm.clean_name name with
    | none =>
      have hnone : AirportForm.is_valid db code name pos = none := by
        unfold AirportForm.is_valid
        cases hp : AirportForm.clean_position db pos <;> rw [hc, hn]
      rw [hnone] at h
      cases h
    | some nm =>
      cases hp : AirportForm.clean_position db pos with
      | none =>
        have hnone : AirportForm.is_valid db code name pos = none := by
          unfold AirportForm.is_valid
          rw [hc, hn, hp]
        rw [hnone] at h
        cases h
      | some p =>
        have hred : AirportForm.is_valid db code name pos =
            (if Airport.validate_unique db c then none else some ⟨c, nm, p⟩) := by
          unfold AirportForm.is_valid
          rw [hc, hn, hp]
        rw [hred] at h
        by_cases hu : Airport.validate_unique db c = true
        · rw [if_pos hu] at h
          cases h
        · rw [if_neg hu] at h
          obtain rfl : (⟨c, nm, p⟩ : Airport) = a := Option.some.inj h
          exact ⟨rfl, rfl, rfl, Bool.not_eq_true _ ▸ hu⟩

/-- A form-validated airport saves successfully: the model full_clean
re-checks what the form already established, and the row is
appended. -/
lemma Airport_save_of_form_valid {db : DB} {code name : String} {pos : Option Int}
    {a : Airport} (h : AirportForm.is_valid db code name pos = some a) :
    Airport.save db a = some { db with airports := db.airports ++ [a] } := by
  obtain ⟨hc, hn, hp, hu⟩ := AirportForm_is_valid_some h
  obtain ⟨hceq, hclen, hcalpha, hcup⟩ := clean_code_some hc
  have ha2 : ({ a with code := pyUpper a.code } : Airport) = a := by
    rw [hcup]
  have hfind : db.airports.find? (fun b => b.position == a.position && b.code != a.code) = none := by
    obtain ⟨-, -, hall⟩ := (clean_position_eq_some_iff db pos a.position).mp hp
    apply List.find?_eq_none.mpr
    intro b hb
    simp [hall b hb]
  have hclean : Airport.clean db a = some a := by
    show (if ({ a with code := pyUpper a.code } : Airport).code.length ≠ 3 then none
      else match db.airports.find? (fun b =>
          b.position == ({ a with code := pyUpper a.code } : Airport).position &&
          b.code != ({ a with code := pyUpper a.code } : Airport).code) with
        | some _ => none
        | none => some ({ a with code := pyUpper a.code } : Airport)) = some a
    rw [ha2, if_neg (by simp [hclen]), hfind]
  have hfull : Airport.full_clean db a = some a := by
    unfold Airport.full_clean
    rw [hclean, Option.some_bind, if_neg (by simp [hu])]
  unfold Airport.save
  rw [hfull]
  rfl

/-- C6 (amended): an airport-registration submission succeeds exactly
when the cleaned code (stripped, uppercased) has 3 alphabetic
characters and is not already taken, the stripped name is non-empty
and within the field limit, and the position is a positive integer not
already used; on success the airport is created with the uppercased
code. The amendment over the original claim is the code-uniqueness
condition: the code column is the unique primary key, so a duplicate
code is rejected even when the original claim's conditions all hold. -/
theorem AddAirportView_post_validation (db : DB) (code name : String) (pos : Option Int) :
    ((AddAirportView.post db true code name pos).2 = PostResult.success ↔
      ((∃ c, AirportForm.clean_code code = some c ∧ ∀ b ∈ db.airports, b.code ≠ c) ∧
       (∃ nm, AirportForm.clean_name name = some nm) ∧
       (∃ p, pos = some p ∧ 1 ≤ p ∧ ∀ b ∈ db.airports, b.position ≠ p))) ∧
    (∀ c, AirportForm.clean_code code = some c →
      c = pyStrip (pyUpper (pyStrip code)) ∧ c.length = 3 ∧ isalpha c = true ∧ pyUpper c = c) ∧
    ((AddAirportView.post db true code name pos).2 ≠ PostResult.success →
      AddAirportView.post db true code name pos = (db, PostResult.formError)) ∧
    (∀ a, AirportForm.is_valid db code name pos = some a →
      AddAirportView.post db true code name pos =
        ({ db with airports := db.airports ++ [a] }, PostResult.success)) := by
  have hpost : ∀ a, AirportForm.is_valid db code name pos = some a →
      AddAirportView.post db true code name pos =
        ({ db with airports := db.airports ++ [a] }, PostResult.success) := by
    intro a hvalid
    unfold AddAirportView.post
    rw [hvalid]
    show (match Airport.save db a with
      | none => (db, PostResult.saveError)
      | some db2 => (db2, PostResult.success)) = _
    rw [Airport_save_of_form_valid hvalid]
  refine ⟨⟨?_, ?_⟩, fun c hc => clean_code_some hc, ?_, hpost⟩
  · intro hsuc
    cases hvalid : AirportForm.is_valid db code name pos with
    | none =>
      have hpostn : AddAirportView.post db true code name pos = (db, PostResult.formError) := by
        unfold AddAirportView.post
        rw [hvalid]
      rw [hpostn] at hsuc
      cases hsuc
    | some a =>
      obtain ⟨hc, hn, hp, hu⟩ := AirportForm_is_valid_some hvalid
      refine ⟨⟨a.code, hc, ?_⟩, ⟨a.name, hn⟩, ?_⟩
      · intro b hb hbc
        unfold Airport.validate_unique at hu
        rw [List.any_eq_false] at hu
        exact hu b hb (by simp [hbc])
      · obtain ⟨hpos, h1p, hall⟩ := (clean_position_eq_some_iff db pos a.position).mp hp
        exact ⟨a.position, hpos, h1p, hall⟩
  · rintro ⟨⟨c, hc, hcu⟩, ⟨nm, hn⟩, ⟨p, hpos, h1p, hall⟩⟩
    have hp2 : AirportForm.clean_position db pos = some p :=
      (clean_position_eq_some_iff db pos p).mpr ⟨hpos, h1p, hall⟩
    have hu : Airport.validate_unique db c = false := by
      unfold Airport.validate_unique
      rw [List.any_eq_false]
      intro b hb
      simp [hcu b hb]
    have hvalid : AirportForm.is_valid db code name pos = some ⟨c, nm, p⟩ := by
      unfold AirportForm.is_valid
      rw [hc, hn, hp2]
      show (if Airport.validate_unique db c then none else some (⟨c, nm, p⟩ : Airport)) = _
      rw [if_neg (by simp [hu])]
    rw [hpost ⟨c, nm, p⟩ hvalid]
  · intro hne
    cases hvalid : AirportForm.is_valid db code name pos with
    | none =>
      unfold AddAirportView.post
      rw [hvalid]
    | some a =>
      exact absurd (congrArg Prod.snd (hpost a hvalid)) hne

/-- Witness for the amended C6: submitting lowercase ord with a padded
name and free position 2 creates ORD with the uppercased code. -/
theorem AddAirportView_post_validation_witness :
    AddAirportView.post ⟨[⟨"JFK", "Kennedy", 1⟩], [], 0⟩ true "ord" " Chicago " (some 2) =
      (⟨[⟨"JFK", "Kennedy", 1⟩, ⟨"ORD", "Chicago", 2⟩], [], 0⟩, PostResult.success) :=
  (AddAirportView_post_validation ⟨[⟨"JFK", "Kennedy", 1⟩], [], 0⟩
    "ord" " Chicago " (some 2)).2.2.2 ⟨"ORD", "Chicago", 2⟩ (by decide)

/-- Counterexample to C6 as stated: the submission JFK, Duplicate,
position 2 against a table already holding airport JFK satisfies all
of the claim's conditions (3 alphabetic uppercase characters,
non-empty name, positive unused position), yet the airport is not
created: the form rejects the duplicate primary-key code. -/
theorem AddAirportView_post_duplicate_code_counterexample :
    AirportForm.clean_code "JFK" = some "JFK" ∧
    AirportForm.clean_name "Duplicate" = some "Duplicate" ∧
    (1 : Int) ≤ 2 ∧
    (∀ b ∈ (⟨[⟨"JFK", "Kennedy", 1⟩], [], 0⟩ : DB).airports, b.position ≠ 2) ∧
    AddAirportView.post ⟨[⟨"JFK", "Kennedy", 1⟩], [], 0⟩ true "JFK" "Duplicate" (some 2) =
      (⟨[⟨"JFK", "Kennedy", 1⟩], [], 0⟩, PostResult.formError) :=
  ⟨by decide, by decide, by decide, by decide, by decide⟩

/-- A resolved ModelChoiceField value is a member of the airports
table. -/
lemma modelChoiceAirport_some {db : DB} {oc : Option String} {s : Airport}
    (h : modelChoiceAirport db oc = some s) : s ∈ db.airports := by
  unfold modelChoiceAirport at h
  cases oc with
  | none =>
    rw [Option.none_bind] at h
    cases h
  | some c =>
    rw [Option.some_bind] at h
    exact List.mem_of_find?_eq_some h

/-- A successful Airport.save appends one row whose position and code
clash with no existing row. -/
lemma Airport_save_some {db : DB} {a : Airport} {db2 : DB}
    (h : Airport.save db a = some db2) :
    ∃ a2, db2 = { db with airports := db.airports ++ [a2] } ∧
      (∀ b ∈ db.airports, b.position ≠ a2.position) ∧
      (∀ b ∈ db.airports, b.code ≠ a2.code) := by
  unfold Airport.save at h
  cases hfc : Airport.full_clean db a with
  | none =>
    rw [hfc] at h
    cases h
  | some a2 =>
    rw [hfc] at h
    refine ⟨a2, (Option.some.inj h).symm, ?_⟩
    unfold Airport.full_clean at hfc
    cases hcl : Airport.clean db a with
    | none =>
      rw [hcl, Option.none_bind] at hfc
      cases hfc
    | some a3 =>
      rw [hcl, Option.some_bind] at hfc
      by_cases hu : Airport.validate_unique db a3.code = true
      · rw [if_pos hu] at hfc
        cases hfc
      · rw [if_neg hu] at hfc
        obtain rfl : a3 = a2 := Option.some.inj hfc
        replace hcl : (if (pyUpper a.code).length ≠ 3 then none
            else match db.airports.find? (fun b =>
                b.position == a.position && b.code != pyUpper a.code) with
              | some _ => none
              | none => some ({ a with code := pyUpper a.code } : Airport)) = some a3 := hcl
        split_ifs at hcl with hl
        cases hf : db.airports.find? (fun b =>
            b.position == a.position && b.code != pyUpper a.code) with
        | some b =>
          rw [hf] at hcl
          cases hcl
        | none =>
          rw [hf] at hcl
          obtain rfl : ({ a with code := pyUpper a.code } : Airport) = a3 :=
            Option.some.inj hcl
          rw [Bool.not_eq_true] at hu
          unfold Airport.validate_unique at hu
          rw [List.any_eq_false] at hu
          constructor
          · intro b hb hbp
            have h1 := List.find?_eq_none.mp hf b hb
            have h2 := hu b hb
            simp only [Bool.and_eq_true, beq_iff_eq, bne_iff_ne, ne_eq, not_and,
              not_not] at h1
            simp only [beq_iff_eq] at h2
            exact h2 (h1 hbp)
          · intro b hb hbc
            have h2 := hu b hb
            simp only [beq_iff_eq] at h2
            exact h2 hbc

/-- State shape after the add-airport view: either unchanged or one
fresh row appended whose position and code are new. -/
lemma AddAirportView_post_state (db : DB) (persistOk : Bool) (code name : String)
    (pos : Option Int) :
    (AddAirportView.post db persistOk code name pos).1 = db ∨
    ∃ a2, (AddAirportView.post db persistOk code name pos).1 =
        { db with airports := db.airports ++ [a2] } ∧
      (∀ b ∈ db.airports, b.position ≠ a2.position) ∧
      (∀ b ∈ db.airports, b.code ≠ a2.code) := by
  cases hvalid : AirportForm.is_valid db code name pos with
  | none =>
    left
    unfold AddAirportView.post
    rw [hvalid]
  | some a =>
    cases persistOk with
    | false =>
      left
      unfold AddAirportView.post
      rw [hvalid]
      rfl
    | true =>
      cases hsave : Airport.save db a with
      | none =>
        left
        unfold AddAirportView.post
        rw [hvalid]
        show (match Airport.save db a with
          | none => (db, PostResult.saveError)
          | some db2 => (db2, PostResult.success)).1 = db
        rw [hsave]
      | some db2 =>
        right
        obtain ⟨a2, hdb2, hp, hc⟩ := Airport_save_some hsave
        refine ⟨a2, ?_, hp, hc⟩
        unfold AddAirportView.post
        rw [hvalid]
        show (match Airport.save db a with
          | none => (db, PostResult.saveError)
          | some db3 => (db3, PostResult.success)).1 = _
        rw [hsave]
        exact hdb2

/-- State shape after the add-route view: either unchanged or one
fresh route appended whose endpoints are existing airports. -/
lemma AddRouteView_post_state (db : DB) (persistOk : Bool) (src dst : Option String)
    (dist : Option Int) :
    (AddRouteView.post db persistOk src dst dist).1 = db ∨
    ∃ r2 : Route, (AddRouteView.post db persistOk src dst dist).1 =
        { db with routes := db.routes ++ [r2], nextRouteId := db.nextRouteId + 1 } ∧
      (∃ s ∈ db.airports, s.code = r2.source) ∧
      (∃ d ∈ db.airports, d.code = r2.destination) := by
  cases hvalid : AirportRouteForm.is_valid db src dst dist with
  | none =>
    left
    unfold AddRouteView.post
    rw [hvalid]
  | some t =>
    obtain ⟨s, d, dv⟩ := t
    cases persistOk with
    | false =>
      left
      unfold AddRouteView.post
      rw [hvalid]
      rfl
    | true =>
      right
      obtain ⟨hs, hd, -, -, -⟩ := AirportRouteForm_is_valid_some hvalid
      refine ⟨⟨db.nextRouteId, s.code, d.code, dv, db.nextRouteId⟩, ?_,
        ⟨s, modelChoiceAirport_some hs, rfl⟩, ⟨d, modelChoiceAirport_some hd, rfl⟩⟩
      unfold AddRouteView.post
      rw [hvalid]
      show (match Route.save db ⟨db.nextRouteId, s.code, d.code, dv, db.nextRouteId⟩ with
        | none => (db, PostResult.saveError)
        | some db2 => (db2, PostResult.success)).1 = _
      rw [Route_save_of_form_valid hvalid]

/-- State shape after the delete-airport view: either unchanged or the
cascade delete of one code. -/
lemma delete_airport_state (db : DB) (persistOk : Bool) (code : String) :
    (delete_airport db persistOk code).1 = db ∨
    (delete_airport db persistOk code).1 = Airport.delete db code := by
  cases hf : db.airports.find? (fun a => a.code == code) with
  | none =>
    left
    unfold delete_airport
    rw [hf]
  | some airport =>
    have hred : delete_airport db persistOk code =
        (if (db.routes.filter (fun r => r.source == airport.code)).length +
            (db.routes.filter (fun r => r.destination == airport.code)).length > 0
          then (db, PostResult.refused)
          else if persistOk then (Airport.delete db airport.code, PostResult.success)
          else (db, PostResult.saveError)) := by
      unfold delete_airport
      rw [hf]
    rw [hred]
    by_cases hcount : (db.routes.filter (fun r => r.source == airport.code)).length +
        (db.routes.filter (fun r => r.destination == airport.code)).length > 0
    · rw [if_pos hcount]
      exact Or.inl rfl
    · rw [if_neg hcount]
      cases persistOk with
      | false => exact Or.inl rfl
      | true =>
        right
        have hcode : airport.code = code := by
          have hs := List.find?_some hf
          simpa using hs
        rw [hcode, if_pos rfl]

/-- State shape after the delete-route view: either unchanged or the
routes table filtered by pk. -/
lemma delete_route_state (db : DB) (persistOk : Bool) (pk : Nat) :
    (delete_route db persistOk pk).1 = db ∨
    (delete_route db persistOk pk).1 =
      { db with routes := db.routes.filter (fun r => r.id != pk) } := by
  unfold delete_route
  cases hf : db.routes.find? (fun r => r.id == pk) with
  | none => exact Or.inl rfl
  | some r =>
    cases persistOk with
    | false => exact Or.inl rfl
    | true => exact Or.inr rfl

/-- The cascade delete preserves all three table invariants. -/
lemma Airport_delete_preserves (db : DB) (code : String) :
    (positionsUnique db → positionsUnique (Airport.delete db code)) ∧
    (codesUnique db → codesUnique (Airport.delete db code)) ∧
    (refIntegrity db → refIntegrity (Airport.delete db code)) := by
  refine ⟨?_, ?_, ?_⟩
  · intro hu
    exact List.Pairwise.sublist (List.filter_sublist _) hu
  · intro hc
    exact List.Pairwise.sublist (List.filter_sublist _) hc
  · intro hri r hr
    obtain ⟨hrm, hcond⟩ := List.mem_filter.mp hr
    rw [Bool.and_eq_true, bne_iff_ne, bne_iff_ne] at hcond
    obtain ⟨⟨s, hs, hsc⟩, ⟨d, hd, hdc⟩⟩ := hri r hrm
    refine ⟨⟨s, List.mem_filter.mpr ⟨hs, ?_⟩, hsc⟩, ⟨d, List.mem_filter.mpr ⟨hd, ?_⟩, hdc⟩⟩
    · simpa using hsc ▸ hcond.1
    · simpa using hdc ▸ hcond.2

/-- Every single application step preserves the three table
invariants. -/
lemma step_preserves {db db2 : DB} (h : Step db db2) :
    (positionsUnique db → positionsUnique db2) ∧
    (codesUnique db → codesUnique db2) ∧
    (refIntegrity db → refIntegrity db2) := by
  cases h with
  | add_airport pOk code name pos =>
    rcases AddAirportView_post_state db pOk code name pos with heq | ⟨a2, heq, hp, hc⟩
    · rw [heq]
      exact ⟨id, id, id⟩
    · rw [heq]
      refine ⟨?_, ?_, ?_⟩
      · intro hu
        rw [positionsUnique] at hu ⊢
        rw [List.pairwise_append]
        refine ⟨hu, List.pairwise_singleton _ _, ?_⟩
        intro x hx y hy
        rw [List.mem_singleton] at hy
        subst hy
        exact hp x hx
      · intro hcu
        rw [codesUnique] at hcu ⊢
        rw [List.pairwise_append]
        refine ⟨hcu, List.pairwise_singleton _ _, ?_⟩
        intro x hx y hy
        rw [List.mem_singleton] at hy
        subst hy
        exact hc x hx
      · intro hri r hr
        obtain ⟨⟨s, hs, hsc⟩, ⟨d, hd, hdc⟩⟩ := hri r hr
        exact ⟨⟨s, List.mem_append_left _ hs, hsc⟩, ⟨d, List.mem_append_left _ hd, hdc⟩⟩
  | add_route pOk src dst dist =>
    rcases AddRouteView_post_state db pOk src dst dist with heq | ⟨r2, heq, hsrc, hdst⟩
    · rw [heq]
      exact ⟨id, id, id⟩
    · rw [heq]
      refine ⟨fun hu => hu, fun hc => hc, ?_⟩
      intro hri r hr
      rcases List.mem_append.mp hr with hr | hr
      · obtain ⟨⟨s, hs, hsc⟩, ⟨d, hd, hdc⟩⟩ := hri r hr
        exact ⟨⟨s, hs, hsc⟩, ⟨d, hd, hdc⟩⟩
      · rw [List.mem_singleton] at hr
        subst hr
        exact ⟨hsrc, hdst⟩
  | del_airport pOk code =>
    rcases delete_airport_state db pOk code with heq | heq
    · rw [heq]
      exact ⟨id, id, id⟩
    · rw [heq]
      exact Airport_delete_preserves db code
  | del_route pOk pk =>
    rcases delete_route_state db pOk pk with heq | heq
    · rw [heq]
      exact ⟨id, id, id⟩
    · rw [heq]
      refine ⟨fun hu => hu, fun hc => hc, ?_⟩
      intro hri r hr
      exact hri r (List.mem_filter.mp hr).1

/-- Every state reachable through the application's write endpoints has
unique positions, unique codes, and referentially intact routes. -/
lemma reachable_invariants (db : DB) (h : Reachable db) :
    positionsUnique db ∧ codesUnique db ∧ refIntegrity db := by
  induction h with
  | empty =>
    refine ⟨List.Pairwise.nil, List.Pairwise.nil, ?_⟩
    intro r hr
    cases hr
  | step hreach hstep ih =>
    obtain ⟨h1, h2, h3⟩ := ih
    obtain ⟨f1, f2, f3⟩ := step_preserves hstep
    exact ⟨f1 h1, f2 h2, f3 h3⟩

/-- C7: in every reachable state no two airports share a position, and
an insert whose position duplicates an existing airport's position is
rejected by the form with the database left unchanged. -/
theorem positionsUnique_invariant :
    (∀ db, Reachable db → positionsUnique db) ∧
    (∀ (db : DB) (persistOk : Bool) (code name : String) (p : Int),
      (∃ a ∈ db.airports, a.position = p) →
      AddAirportView.post db persistOk code name (some p) = (db, PostResult.formError)) := by
  constructor
  · exact fun db h => (reachable_invariants db h).1
  · rintro db pOk code name p ⟨a, ha, hap⟩
    have hcp : AirportForm.clean_position db (some p) = none := by
      cases hcpv : AirportForm.clean_position db (some p) with
      | none => rfl
      | some q =>
        obtain ⟨hq, h1q, hall⟩ := (clean_position_eq_some_iff db (some p) q).mp hcpv
        obtain rfl : p = q := Option.some.inj hq
        exact absurd hap (hall a ha)
    have hvalid : AirportForm.is_valid db code name (some p) = none := by
      unfold AirportForm.is_valid
      cases hc : AirportForm.clean_code code <;> cases hn : AirportForm.clean_name name <;>
        rw [hcp]
    unfold AddAirportView.post
    rw [hvalid]

/-- Witness for C7: the empty database (trivially reachable) has unique
positions, and inserting LAX at the taken position 1 is rejected. -/
theorem positionsUnique_invariant_witness :
    positionsUnique DB.empty ∧
    AddAirportView.post ⟨[⟨"JFK", "Kennedy", 1⟩], [], 0⟩ true "LAX" "Los Angeles" (some 1) =
      (⟨[⟨"JFK", "Kennedy", 1⟩], [], 0⟩, PostResult.formError) :=
  ⟨positionsUnique_invariant.1 DB.empty Reachable.empty,
    positionsUnique_invariant.2 ⟨[⟨"JFK", "Kennedy", 1⟩], [], 0⟩ true "LAX" "Los Angeles" 1
      ⟨⟨"JFK", "Kennedy", 1⟩, by decide, by decide⟩⟩

/-- The add-airport view leaves the database unchanged on any
non-success outcome, and a persistence failure never reports
success. -/
lemma AddAirportView_post_atomic (db : DB) (pOk : Bool) (code name : String)
    (pos : Option Int) :
    ((AddAirportView.post db pOk code name pos).2 ≠ PostResult.success →
      (AddAirportView.post db pOk code name pos).1 = db) ∧
    (pOk = false → (AddAirportView.post db pOk code name pos).2 ≠ PostResult.success) := by
  cases hvalid : AirportForm.is_valid db code name pos with
  | none =>
    have hres : AddAirportView.post db pOk code name pos = (db, PostResult.formError) := by
      unfold AddAirportView.post
      rw [hvalid]
    rw [hres]
    exact ⟨fun _ => rfl, fun _ => by simp⟩
  | some a =>
    cases pOk with
    | false =>
      have hres : AddAirportView.post db false code name pos = (db, PostResult.saveError) := by
        unfold AddAirportView.post
        rw [hvalid]
        rfl
      rw [hres]
      exact ⟨fun _ => rfl, fun _ => by simp⟩
    | true =>
      refine ⟨?_, fun h => Bool.noConfusion h⟩
      intro hne
      cases hsave : Airport.save db a with
      | none =>
        unfold AddAirportView.post
        rw [hvalid]
        show (match Airport.save db a with
          | none => (db, PostResult.saveError)
          | some db2 => (db2, PostResult.success)).1 = db
        rw [hsave]
      | some db2 =>
        exfalso
        apply hne
        unfold AddAirportView.post
        rw [hvalid]
        show (match Airport.save db a with
          | none => (db, PostResult.saveError)
          | some db3 => (db3, PostResult.success)).2 = PostResult.success
        rw [hsave]

/-- The add-route view leaves the database unchanged on any
non-success outcome, and a persistence failure never reports
success. -/
lemma AddRouteView_post_atomic (db : DB) (pOk : Bool) (src dst : Option String)
    (dist : Option Int) :
    ((AddRouteView.post db pOk src dst dist).2 ≠ PostResult.success →
      (AddRouteView.post db pOk src dst dist).1 = db) ∧
    (pOk = false → (AddRouteView.post db pOk src dst dist).2 ≠ PostResult.success) := by
  cases hvalid : AirportRouteForm.is_valid db src dst dist with
  | none =>
    have hres : AddRouteView.post db pOk src dst dist = (db, PostResult.formError) := by
      unfold AddRouteView.post
      rw [hvalid]
    rw [hres]
    exact ⟨fun _ => rfl, fun _ => by simp⟩
  | some t =>
    obtain ⟨s, d, dv⟩ := t
    cases pOk with
    | false =>
      have hres : AddRouteView.post db false src dst dist = (db, PostResult.saveError) := by
        unfold AddRouteView.post
        rw [hvalid]
        rfl
      rw [hres]
      exact ⟨fun _ => rfl, fun _ => by simp⟩
    | true =>
      refine ⟨?_, fun h => Bool.noConfusion h⟩
      intro hne
      exfalso
      apply hne
      unfold AddRouteView.post
      rw [hvalid]
      show (match Route.save db ⟨db.nextRouteId, s.code, d.code, dv, db.nextRouteId⟩ with
        | none => (db, PostResult.saveError)
        | some db2 => (db2, PostResult.success)).2 = PostResult.success
      rw [Route_save_of_form_valid hvalid]

/-- The delete-airport view leaves the database unchanged on any
non-success outcome, and a persistence failure never reports
success. -/
lemma delete_airport_atomic (db : DB) (pOk : Bool) (acode : String) :
    ((delete_airport db pOk acode).2 ≠ PostResult.success →
      (delete_airport db pOk acode).1 = db) ∧
    (pOk = false → (delete_airport db pOk acode).2 ≠ PostResult.success) := by
  cases hf : db.airports.find? (fun a => a.code == acode) with
  | none =>
    have hres : delete_airport db pOk acode = (db, PostResult.notFound) := by
      unfold delete_airport
      rw [hf]
    rw [hres]
    exact ⟨fun _ => rfl, fun _ => by simp⟩
  | some airport =>
    have hred : delete_airport db pOk acode =
        (if (db.routes.filter (fun r => r.source == airport.code)).length +
            (db.routes.filter (fun r => r.destination == airport.code)).length > 0
          then (db, PostResult.refused)
          else if pOk then (Airport.delete db airport.code, PostResult.success)
          else (db, PostResult.saveError)) := by
      unfold delete_airport
      rw [hf]
    rw [hred]
    by_cases hcount : (db.routes.filter (fun r => r.source == airport.code)).length +
        (db.routes.filter (fun r => r.destination == airport.code)).length > 0
    · rw [if_pos hcount]
      exact ⟨fun _ => rfl, fun _ => by simp⟩
    · rw [if_neg hcount]
      cases pOk with
      | false => exact ⟨fun _ => rfl, fun _ => by simp⟩
      | true =>
        refine ⟨?_, fun h => Bool.noConfusion h⟩
        intro hne
        exfalso
        apply hne
        rw [if_pos rfl]

/-- The delete-route view leaves the database unchanged on any
non-success outcome, and a persistence failure never reports
success. -/
lemma delete_route_atomic (db : DB) (pOk : Bool) (pk : Nat) :
    ((delete_route db pOk pk).2 ≠ PostResult.success →
      (delete_route db pOk pk).1 = db) ∧
    (pOk = false → (delete_route db pOk pk).2 ≠ PostResult.success) := by
  cases hf : db.routes.find? (fun r => r.id == pk) with
  | none =>
    have hres : delete_route db pOk pk = (db, PostResult.notFound) := by
      unfold delete_route
      rw [hf]
    rw [hres]
    exact ⟨fun _ => rfl, fun _ => by simp⟩
  | some r =>
    cases pOk with
    | false =>
      have hres : delete_route db false pk = (db, PostResult.saveError) := by
        unfold delete_route
        rw [hf]
        rfl
      rw [hres]
      exact ⟨fun _ => rfl, fun _ => by simp⟩
    | true =>
      refine ⟨?_, fun h => Bool.noConfusion h⟩
      intro hne
      exfalso
      apply hne
      have hres : delete_route db true pk =
          ({ db with routes := db.routes.filter (fun t => t.id != pk) }, PostResult.success) := by
        unfold delete_route
        rw [hf]
        rfl
      rw [hres]

/-- C8: every write endpoint is atomic: whenever the outcome is not
success (validation error, refusal, 404, or an exception raised during
persistence and caught by the view), the database state afterwards
equals the state before; and a persistence failure is surfaced as an
error outcome, never as success. -/
theorem write_operations_atomic (db : DB) (persistOk : Bool) (code name : String)
    (pos : Option Int) (src dst : Option String) (dist : Option Int)
    (acode : String) (pk : Nat) :
    ((AddAirportView.post db persistOk code name pos).2 ≠ PostResult.success →
      (AddAirportView.post db persistOk code name pos).1 = db) ∧
    ((AddRouteView.post db persistOk src dst dist).2 ≠ PostResult.success →
      (AddRouteView.post db persistOk src dst dist).1 = db) ∧
    ((delete_airport db persistOk acode).2 ≠ PostResult.success →
      (delete_airport db persistOk acode).1 = db) ∧
    ((delete_route db persistOk pk).2 ≠ PostResult.success →
      (delete_route db persistOk pk).1 = db) ∧
    (persistOk = false →
      (AddAirportView.post db persistOk code name pos).2 ≠ PostResult.success ∧
      (AddRouteView.post db persistOk src dst dist).2 ≠ PostResult.success ∧
      (delete_airport db persistOk acode).2 ≠ PostResult.success ∧
      (delete_route db persistOk pk).2 ≠ PostResult.success) :=
  ⟨(AddAirportView_post_atomic db persistOk code name pos).1,
   (AddRouteView_post_atomic db persistOk src dst dist).1,
   (delete_airport_atomic db persistOk acode).1,
   (delete_route_atomic db persistOk pk).1,
   fun hpf =>
     ⟨(AddAirportView_post_atomic db persistOk code name pos).2 hpf,
      (AddRouteView_post_atomic db persistOk src dst dist).2 hpf,
      (delete_airport_atomic db persistOk acode).2 hpf,
      (delete_route_atomic db persistOk pk).2 hpf⟩⟩

/-- Witness for C8: with persistence failing, a valid airport insert
and a route delete both leave the concrete database unchanged. -/
theorem write_operations_atomic_witness :
    (AddAirportView.post ⟨[⟨"JFK", "Kennedy", 1⟩], [], 0⟩ false "LAX" "Los Angeles" (some 2)).1 =
      ⟨[⟨"JFK", "Kennedy", 1⟩], [], 0⟩ ∧
    (delete_route ⟨[⟨"JFK", "Kennedy", 1⟩], [], 0⟩ false 5).1 =
      ⟨[⟨"JFK", "Kennedy", 1⟩], [], 0⟩ := by
  have h := write_operations_atomic ⟨[⟨"JFK", "Kennedy", 1⟩], [], 0⟩ false "LAX" "Los Angeles"
    (some 2) (some "JFK") (some "LAX") (some 100) "JFK" 5
  exact ⟨h.1 (by decide), h.2.2.2.1 (by decide)⟩

/-- C9: referential integrity of routes is maintained by cascade, not
restriction: the model-layer airport delete silently removes every
route referencing the airport (on_delete=CASCADE on both foreign
keys), keeps every other route, preserves referential integrity, and
every reachable state is referentially intact; the only guard against
deleting a referenced airport is the check in the delete_airport view,
which refuses with the state unchanged. -/
theorem route_fk_cascade_integrity (db : DB) (code : String) (h : refIntegrity db) :
    refIntegrity (Airport.delete db code) ∧
    (∀ r ∈ db.routes, (r.source = code ∨ r.destination = code) →
      r ∉ (Airport.delete db code).routes) ∧
    (∀ r ∈ db.routes, r.source ≠ code → r.destination ≠ code →
      r ∈ (Airport.delete db code).routes) ∧
    (∀ a ∈ (Airport.delete db code).airports, a.code ≠ code) ∧
    (∀ db0, Reachable db0 → refIntegrity db0) ∧
    (∀ persistOk, (∃ a ∈ db.airports, a.code = code) →
      (∃ r ∈ db.routes, r.source = code ∨ r.destination = code) →
      delete_airport db persistOk code = (db, PostResult.refused)) := by
  refine ⟨(Airport_delete_preserves db code).2.2 h, ?_, ?_, ?_,
    fun db0 h0 => (reachable_invariants db0 h0).2.2, ?_⟩
  · intro r hr hor hmem
    have hcond := (List.mem_filter.mp hmem).2
    rw [Bool.and_eq_true, bne_iff_ne, bne_iff_ne] at hcond
    rcases hor with h1 | h1
    · exact hcond.1 h1
    · exact hcond.2 h1
  · intro r hr h1 h2
    apply List.mem_filter.mpr
    refine ⟨hr, ?_⟩
    rw [Bool.and_eq_true, bne_iff_ne, bne_iff_ne]
    exact ⟨h1, h2⟩
  · intro a ha
    have hcond := (List.mem_filter.mp ha).2
    rwa [bne_iff_ne] at hcond
  · rintro pOk ⟨a, ha, hac⟩ ⟨r, hr, hor⟩
    cases hf : db.airports.find? (fun x => x.code == code) with
    | none =>
      have := List.find?_eq_none.mp hf a ha
      simp [hac] at this
    | some airport =>
      have hcode : airport.code = code := by
        have hs := List.find?_some hf
        simpa using hs
      have hpos : (db.routes.filter (fun t => t.source == airport.code)).length +
          (db.routes.filter (fun t => t.destination == airport.code)).length > 0 := by
        rcases hor with h1 | h1
        · have hm : r ∈ db.routes.filter (fun t => t.source == airport.code) :=
            List.mem_filter.mpr ⟨hr, by simp [h1, hcode]⟩
          have := List.length_pos.mpr (List.ne_nil_of_mem hm)
          omega
        · have hm : r ∈ db.routes.filter (fun t => t.destination == airport.code) :=
            List.mem_filter.mpr ⟨hr, by simp [h1, hcode]⟩
          have := List.length_pos.mpr (List.ne_nil_of_mem hm)
          omega
      unfold delete_airport
      rw [hf]
      simp only [if_pos hpos]

/-- Witness for C9 on a concrete database: cascading the model-layer
delete of LAX removes the LAX to ORD route, while the view refuses to
delete LAX at all. -/
theorem route_fk_cascade_integrity_witness :
    (⟨0, "LAX", "ORD", 500, 0⟩ : Route) ∉
      (Airport.delete ⟨[⟨"LAX", "Los Angeles", 2⟩, ⟨"ORD", "Chicago", 3⟩],
        [⟨0, "LAX", "ORD", 500, 0⟩], 1⟩ "LAX").routes ∧
    delete_airport ⟨[⟨"LAX", "Los Angeles", 2⟩, ⟨"ORD", "Chicago", 3⟩],
        [⟨0, "LAX", "ORD", 500, 0⟩], 1⟩ true "LAX" =
      (⟨[⟨"LAX", "Los Angeles", 2⟩, ⟨"ORD", "Chicago", 3⟩], [⟨0, "LAX", "ORD", 500, 0⟩], 1⟩,
        PostResult.refused) := by
  have h := route_fk_cascade_integrity
    ⟨[⟨"LAX", "Los Angeles", 2⟩, ⟨"ORD", "Chicago", 3⟩], [⟨0, "LAX", "ORD", 500, 0⟩], 1⟩
    "LAX" (by decide)
  exact ⟨h.2.1 ⟨0, "LAX", "ORD", 500, 0⟩ (by decide) (Or.inl rfl),
    h.2.2.2.2.2 true ⟨⟨"LAX", "Los Angeles", 2⟩, by decide, rfl⟩
      ⟨⟨0, "LAX", "ORD", 500, 0⟩, by decide, Or.inl rfl⟩⟩
